import Mathlib

/-!
Verification of the bulk-ingestion pipeline of the OpenDiscourse
`api.congress.gov` repository (`bulk_ingest.py`, `database.py`).

The Python code manipulates parsed JSON payloads (dictionaries, lists,
strings, numbers, booleans, None).  We embed those values as the inductive
type `JVal` and translate each relevant Python operation (`dict.get`,
`in`, subscripting, truthiness, `json.dumps`, `str.replace`) into a Lean
function with the same observable behaviour, including the exceptions the
operation can raise (`AttributeError`, `TypeError`, `KeyError`,
`IndexError`), which we model with the `Except PyErr` monad.
-/

/- A parsed JSON value as manipulated by the Python code.  Arrays and
dicts are represented by the mutually inductive spine types `JArr` and
`JObj` so that every operation on them is structurally recursive (and
hence both executable and kernel-evaluable). -/
mutual

inductive JVal where
  | null : JVal
  | bool (b : Bool) : JVal
  | num (n : Int) : JVal
  | str (s : String) : JVal
  | arr (xs : JArr) : JVal
  | obj (kvs : JObj) : JVal

inductive JArr where
  | nil : JArr
  | cons (hd : JVal) (tl : JArr) : JArr

inductive JObj where
  | nil : JObj
  | cons (key : String) (val : JVal) (tl : JObj) : JObj

end

/-- Build an array value from a Lean list. -/
def JArr.ofList : List JVal → JArr
  | [] => .nil
  | x :: xs => .cons x (JArr.ofList xs)

/-- The elements of an array value as a Lean list. -/
def JArr.toList : JArr → List JVal
  | .nil => []
  | .cons x t => x :: t.toList

/-- Build a dict value from a Lean key/value list. -/
def JObj.ofList : List (String × JVal) → JObj
  | [] => .nil
  | kv :: t => .cons kv.1 kv.2 (JObj.ofList t)

/-- Array literal. -/
def jarr (xs : List JVal) : JVal := .arr (JArr.ofList xs)

/-- Dict literal (Python dict keys are unique; lookups take the first
match, which agrees with dict lookup). -/
def jobj (kvs : List (String × JVal)) : JVal := .obj (JObj.ofList kvs)

lemma JArr.toList_ofList (xs : List JVal) :
    (JArr.ofList xs).toList = xs := by
  induction xs with
  | nil => rfl
  | cons x t ih => simp [JArr.ofList, JArr.toList, ih]

/-- Python dict lookup. -/
def JObj.lookup : JObj → String → Option JVal
  | .nil, _ => none
  | .cons k v t, key => if k = key then some v else t.lookup key

/-- Python `key in dict`. -/
def JObj.hasKey (o : JObj) (k : String) : Bool := (o.lookup k).isSome

/-- Python `any`-style scan over an array value. -/
def JArr.any (p : JVal → Bool) : JArr → Bool
  | .nil => false
  | .cons x t => p x || JArr.any p t

/- Boolean equality, mutually over the three spine types; it decides
propositional equality and embeds the store's natural-key comparison. -/
mutual

def JVal.beq : JVal → JVal → Bool
  | .null, .null => true
  | .bool a, .bool b => a == b
  | .num a, .num b => a == b
  | .str a, .str b => a == b
  | .arr a, .arr b => JArr.beq a b
  | .obj a, .obj b => JObj.beq a b
  | _, _ => false

def JArr.beq : JArr → JArr → Bool
  | .nil, .nil => true
  | .cons x xs, .cons y ys => JVal.beq x y && JArr.beq xs ys
  | _, _ => false

def JObj.beq : JObj → JObj → Bool
  | .nil, .nil => true
  | .cons k v t, .cons l w u => k == l && JVal.beq v w && JObj.beq t u
  | _, _ => false

end

mutual

theorem JVal.beq_refl : ∀ a : JVal, JVal.beq a a = true
  | .null => rfl
  | .bool b => by simp [JVal.beq]
  | .num n => by simp [JVal.beq]
  | .str s => by simp [JVal.beq]
  | .arr a => by simp [JVal.beq]; exact JArr.beqArr_refl a
  | .obj o => by simp [JVal.beq]; exact JObj.beqObj_refl o

theorem JArr.beqArr_refl : ∀ a : JArr, JArr.beq a a = true
  | .nil => rfl
  | .cons x t => by
      simp [JArr.beq]
      exact ⟨JVal.beq_refl x, JArr.beqArr_refl t⟩

theorem JObj.beqObj_refl : ∀ o : JObj, JObj.beq o o = true
  | .nil => rfl
  | .cons k v t => by
      simp [JObj.beq]
      exact ⟨JVal.beq_refl v, JObj.beqObj_refl t⟩

end

mutual

theorem JVal.beq_sound : ∀ a b : JVal, JVal.beq a b = true → a = b
  | .null, b, h => by cases b <;> simp_all [JVal.beq]
  | .bool x, b, h => by cases b <;> simp_all [JVal.beq]
  | .num x, b, h => by cases b <;> simp_all [JVal.beq]
  | .str x, b, h => by cases b <;> simp_all [JVal.beq]
  | .arr a, .arr b, h => by
      simp only [JVal.beq] at h
      rw [JArr.beqArr_sound a b h]
  | .arr a, .null, h => by simp [JVal.beq] at h
  | .arr a, .bool _, h => by simp [JVal.beq] at h
  | .arr a, .num _, h => by simp [JVal.beq] at h
  | .arr a, .str _, h => by simp [JVal.beq] at h
  | .arr a, .obj _, h => by simp [JVal.beq] at h
  | .obj o, .obj b, h => by
      simp only [JVal.beq] at h
      rw [JObj.beqObj_sound o b h]
  | .obj o, .null, h => by simp [JVal.beq] at h
  | .obj o, .bool _, h => by simp [JVal.beq] at h
  | .obj o, .num _, h => by simp [JVal.beq] at h
  | .obj o, .str _, h => by simp [JVal.beq] at h
  | .obj o, .arr _, h => by simp [JVal.beq] at h

theorem JArr.beqArr_sound : ∀ a b : JArr, JArr.beq a b = true → a = b
  | .nil, b, h => by cases b <;> simp_all [JArr.beq]
  | .cons x xs, .nil, h => by simp [JArr.beq] at h
  | .cons x xs, .cons y ys, h => by
      simp only [JArr.beq, Bool.and_eq_true] at h
      rw [JVal.beq_sound x y h.1, JArr.beqArr_sound xs ys h.2]

theorem JObj.beqObj_sound : ∀ a b : JObj, JObj.beq a b = true → a = b
  | .nil, b, h => by cases b <;> simp_all [JObj.beq]
  | .cons k v t, .nil, h => by simp [JObj.beq] at h
  | .cons k v t, .cons l w u, h => by
      simp only [JObj.beq, Bool.and_eq_true, beq_iff_eq] at h
      rw [h.1.1, JVal.beq_sound v w h.1.2, JObj.beqObj_sound t u h.2]

end

instance : DecidableEq JVal := fun a b =>
  decidable_of_iff (JVal.beq a b = true)
    ⟨JVal.beq_sound a b, fun h => h ▸ JVal.beq_refl a⟩

instance : DecidableEq JArr := fun a b =>
  decidable_of_iff (JArr.beq a b = true)
    ⟨JArr.beqArr_sound a b, fun h => h ▸ JArr.beqArr_refl a⟩

instance : DecidableEq JObj := fun a b =>
  decidable_of_iff (JObj.beq a b = true)
    ⟨JObj.beqObj_sound a b, fun h => h ▸ JObj.beqObj_refl a⟩

/-- Exceptions that the embedded Python fragments can raise.
`fetchError` stands for an arbitrary exception escaping a transport call
(`self.client.get`); the string is the exception's message (`str(e)`). -/
inductive PyErr where
  | attributeError : PyErr
  | typeError : PyErr
  | keyError : PyErr
  | indexError : PyErr
  | fetchError (msg : String) : PyErr
deriving DecidableEq, Repr

/-- `str(e)` for an embedded exception: the message recorded into the
error list by the orchestrator. -/
def PyErr.message : PyErr → String
  | .attributeError => "AttributeError"
  | .typeError => "TypeError"
  | .keyError => "KeyError"
  | .indexError => "IndexError"
  | .fetchError msg => msg

/-- Python truthiness of a parsed JSON value: `None`, `False`, `0`, `""`,
`[]` and the empty dict are falsy, everything else is truthy. -/
def JVal.truthy : JVal → Bool
  | .null => false
  | .bool b => b
  | .num n => n != 0
  | .str s => s ≠ ""
  | .arr .nil => false
  | .arr (.cons _ _) => true
  | .obj .nil => false
  | .obj (.cons _ _ _) => true

/-- Python `x.get(k)` (default `None`): only dicts have `.get`; on any
other value it raises `AttributeError`. -/
def pyGet (v : JVal) (k : String) : Except PyErr JVal :=
  match v with
  | .obj o => .ok ((o.lookup k).getD .null)
  | _ => .error .attributeError

/-- Python `x.get(k, default)`. -/
def pyGetD (v : JVal) (k : String) (dflt : JVal) : Except PyErr JVal :=
  match v with
  | .obj o => .ok ((o.lookup k).getD dflt)
  | _ => .error .attributeError

/-- Python `k in x` for a string key `k`: key membership for dicts,
substring test for strings, element equality for lists, `TypeError`
otherwise. -/
def pyContains (v : JVal) (k : String) : Except PyErr Bool :=
  match v with
  | .obj o => .ok (o.hasKey k)
  | .str s => .ok ((s.splitOn k).length > 1)
  | .arr a =>
      .ok (JArr.any (fun x => match x with | .str s => s = k | _ => false) a)
  | _ => .error .typeError

/-- Python `x[k]` for a string key `k`: dict subscripting (`KeyError`
when absent); strings and lists raise `TypeError` for a string index;
`TypeError` otherwise. -/
def pySubscriptStr (v : JVal) (k : String) : Except PyErr JVal :=
  match v with
  | .obj o =>
      match o.lookup k with
      | some x => .ok x
      | none => .error .keyError
  | _ => .error .typeError

/-- Python `x[i]` for a small natural index: list indexing (`IndexError`
when out of range), string indexing (one-character string), `KeyError`
for a dict whose keys are JSON strings, `TypeError` otherwise. -/
def pyIndex (v : JVal) (i : Nat) : Except PyErr JVal :=
  match v with
  | .arr a =>
      match a.toList.get? i with
      | some x => .ok x
      | none => .error .indexError
  | .str s =>
      match s.data.get? i with
      | some c => .ok (.str (String.mk [c]))
      | none => .error .indexError
  | .obj _ => .error .keyError
  | _ => .error .typeError

/- `json.dumps` on a parsed JSON value (string escaping is irrelevant to
every property proved below; only functionality of the serializer is
used). -/
mutual

def dumps : JVal → String
  | .null => "null"
  | .bool b => cond b "true" "false"
  | .num n => toString n
  | .str s => "\x22" ++ s ++ "\x22"
  | .arr a => "[" ++ dumpsArr a ++ "]"
  | .obj o => "\x7b" ++ dumpsObj o ++ "\x7d"

def dumpsArr : JArr → String
  | .nil => ""
  | .cons x t => dumps x ++ dumpsArrRest t

def dumpsArrRest : JArr → String
  | .nil => ""
  | .cons x t => ", " ++ dumps x ++ dumpsArrRest t

def dumpsObj : JObj → String
  | .nil => ""
  | .cons k v t => "\x22" ++ k ++ "\x22: " ++ dumps v ++ dumpsObjRest t

def dumpsObjRest : JObj → String
  | .nil => ""
  | .cons k v t => ", " ++ "\x22" ++ k ++ "\x22: " ++ dumps v ++ dumpsObjRest t

end

instance : Repr JVal := ⟨fun v _ => Std.Format.text (dumps v)⟩

/-- Python `str(x)` as used to build a detail-endpoint URL from a
`bioguideId` field; the resulting string only serves as the key handed
to the abstract transport oracle. -/
def pyStr : JVal → String
  | .null => "None"
  | .bool b => cond b "True" "False"
  | .num n => toString n
  | .str s => s
  | v => dumps v

/-- Left-to-right non-overlapping replacement on character lists, the
semantics of Python `str.replace` for a non-empty pattern (the source
only ever replaces the constant API base URL).  The fuel argument —
always called with more fuel than characters — only makes the recursion
structural; every step consumes at least one character. -/
def replaceGo (pat rep : List Char) : Nat → List Char → List Char
  | 0, s => s
  | _ + 1, [] => []
  | f + 1, c :: rest =>
      if pat ≠ [] ∧ pat.isPrefixOf (c :: rest) then
        rep ++ replaceGo pat rep f ((c :: rest).drop pat.length)
      else
        c :: replaceGo pat rep f rest

/-- Python `s.replace(pat, rep)` on strings. -/
def pyStrReplace (s pat rep : String) : String :=
  String.mk (replaceGo pat.data rep.data (s.data.length + 1) s.data)

/-- Python `x.replace(a, b)`: a `str` method, `AttributeError` on any
non-string value. -/
def pyReplace (v : JVal) (a b : String) : Except PyErr String :=
  match v with
  | .str s => .ok (pyStrReplace s a b)
  | _ => .error .attributeError

/-!
## PaginatedFetcher: `BulkIngestor._fetch_paginated` and `_extract_items`

The transport client (`cdg_client.CDGClient`, outside this repository) is
the consumed capability `GET(url) -> (jsonBody, statusCode)`.  One call is
modelled as an `Except String (JVal × Nat)`: `.error msg` is an exception
escaping the call (with `str(e) = msg`), `.ok (data, status)` a response.
The pagination loop performs one `client.get` per iteration, following the
`pagination.next` cursor embedded in each response, so the transport is
modelled as the list of successive responses along the followed chain.
-/

/-- Outcome of one `self.client.get(url)` call. -/
abbrev FetchResp := Except String (JVal × Nat)

/-- The item keys probed by `BulkIngestor._extract_items`, in source
order. -/
def extractKeys : List String :=
  ["bills", "members", "amendments", "committees", "nominations",
   "treaties", "reports", "hearings", "items"]

/-- The key-probing loop of `_extract_items`: the first key present in
the response wins; its value is returned as-is when it is a list and
wrapped in a singleton otherwise; no key present yields `[]`.  The `in`
test itself can raise on non-container response bodies. -/
def extractItemsGo (data : JVal) : List String → Except PyErr (List JVal)
  | [] => .ok []
  | k :: ks => do
    let c ← pyContains data k
    if c then do
      let items ← pySubscriptStr data k
      match items with
      | .arr a => pure a.toList
      | v => pure [v]
    else extractItemsGo data ks

/-- `BulkIngestor._extract_items`. -/
def extract_items (data : JVal) : Except PyErr (List JVal) :=
  extractItemsGo data extractKeys

/-- The `while` loop of `BulkIngestor._fetch_paginated` (bulk_ingest.py
lines 78-101).  The loop body is wrapped in a `try` whose handler breaks
out of the loop, so every embedded exception turns into returning the
items accumulated so far.  Items are appended to the accumulator before
the pagination metadata is read, exactly as in the source, so a failure
while reading `pagination.next` still keeps the current page's items.
An exhausted response list models an exception from `client.get`. -/
def fetchPaginatedGo (maxPages : Option Nat) :
    List FetchResp → Nat → JVal → List JVal → List JVal
  | resps, page, nextUrl, accItems =>
    if nextUrl.truthy && (match maxPages with
        | none => true
        | some k => decide (page < k)) then
      match resps with
      | [] => accItems
      | r :: rest =>
        match r with
        | .error _ => accItems
        | .ok (data, statusCode) =>
          if statusCode ≠ 200 then accItems
          else
            match extract_items data with
            | .error _ => accItems
            | .ok items =>
              let acc2 := accItems ++ items
              match (do
                  let pag ← pyGetD data "pagination" (jobj [])
                  pyGet pag "next") with
              | .error _ => acc2
              | .ok next => fetchPaginatedGo maxPages rest (page + 1) next acc2
    else accItems

/-- `BulkIngestor._fetch_paginated`: starts from
`endpoint?limit={limit}&offset=0` at page count 0 with an empty
accumulator. -/
def fetch_paginated (resps : List FetchResp) (endpoint : String)
    (limit : Nat) (maxPages : Option Nat) : List JVal :=
  fetchPaginatedGo maxPages resps 0
    (.str (endpoint ++ "?limit=" ++ toString limit ++ "&offset=0")) []

/-- A well-formed page response body for the bills endpoint: the items
under the repository's `bills` key and pagination metadata carrying the
given `next` cursor. -/
def mkBillsPage (items : List JVal) (next : JVal) : JVal :=
  jobj [("bills", jarr items), ("pagination", jobj [("next", next)])]

/-- A paginated response sequence terminated by a null `next` cursor:
every page except the last carries a cursor, the last page's cursor is
null. -/
def chainResponses : List (List JVal) → List FetchResp
  | [] => []
  | [p] => [.ok (mkBillsPage p .null, 200)]
  | p :: q :: rest =>
      .ok (mkBillsPage p (.str "nextpage"), 200) :: chainResponses (q :: rest)

/-- A response sequence in which every page carries a `next` cursor. -/
def openChainResponses (pages : List (List JVal)) : List FetchResp :=
  pages.map (fun p => .ok (mkBillsPage p (.str "nextpage"), 200))

lemma extract_items_mkBillsPage (items : List JVal) (next : JVal) :
    extract_items (mkBillsPage items next) = .ok items := by
  have h : extract_items (mkBillsPage items next)
      = .ok ((JArr.ofList items).toList) := rfl
  rw [h, JArr.toList_ofList]

lemma pagination_next_mkBillsPage (items : List JVal) (next : JVal) :
    (do
      let pag ← pyGetD (mkBillsPage items next) "pagination" (jobj [])
      pyGet pag "next") = Except.ok next := rfl

lemma str_append_ne_empty (a b : String) (hb : b ≠ "") : a ++ b ≠ "" := by
  intro h
  apply hb
  apply String.ext
  have hd := congrArg String.data h
  rw [String.data_append] at hd
  have he : ("" : String).data = [] := rfl
  rw [he] at hd
  have hb2 : b.data = [] := (List.append_eq_nil.mp hd).2
  rw [hb2, he]

lemma fetchPaginatedGo_chain (pages : List (List JVal)) :
    ∀ (page : Nat) (s : String) (acc : List JVal), s ≠ "" →
      fetchPaginatedGo none (chainResponses pages) page (.str s) acc
        = acc ++ pages.flatten := by
  induction pages with
  | nil =>
      intro page s acc hs
      simp [chainResponses, fetchPaginatedGo]
  | cons p rest ih =>
      intro page s acc hs
      cases rest with
      | nil =>
          simp [chainResponses, fetchPaginatedGo, JVal.truthy, hs,
            extract_items_mkBillsPage, pagination_next_mkBillsPage]
      | cons q rest2 =>
          have hstep := ih (page + 1) "nextpage" (acc ++ p) (by decide)
          simp [chainResponses, fetchPaginatedGo, JVal.truthy, hs,
            extract_items_mkBillsPage, pagination_next_mkBillsPage]
          simpa [List.append_assoc] using hstep

lemma fetchPaginatedGo_open (pages : List (List JVal)) :
    ∀ (k page : Nat) (s : String) (acc : List JVal), s ≠ "" →
      fetchPaginatedGo (some k) (openChainResponses pages) page (.str s) acc
        = acc ++ ((pages.take (k - page)).flatten) := by
  induction pages with
  | nil =>
      intro k page s acc hs
      by_cases hpk : page < k <;>
        simp [openChainResponses, fetchPaginatedGo, JVal.truthy, hs, hpk]
  | cons p rest ih =>
      intro k page s acc hs
      by_cases hpk : page < k
      · have hstep := ih k (page + 1) "nextpage" (acc ++ p) (by decide)
        have htake : (p :: rest).take (k - page)
            = p :: rest.take (k - (page + 1)) := by
          have : k - page = (k - (page + 1)) + 1 := by omega
          rw [this, List.take_succ_cons]
        simp [openChainResponses, fetchPaginatedGo, JVal.truthy, hs, hpk,
          extract_items_mkBillsPage, pagination_next_mkBillsPage, htake]
        simpa [openChainResponses, List.append_assoc] using hstep
      · have : k - page = 0 := by omega
        simp [openChainResponses, fetchPaginatedGo, JVal.truthy, hs, hpk, this]

/-- C4: for every paginated response sequence terminated by a null `next`
cursor, `_fetch_paginated` returns the exact concatenation of every
page's item list in server order; and with `max_pages = k` it stops after
k pages even when every response still carries a `next` cursor, returning
exactly the items of the first k pages. -/
theorem fetch_paginated_concat_and_page_cap :
    (∀ (pages : List (List JVal)) (endpoint : String) (limit : Nat),
        fetch_paginated (chainResponses pages) endpoint limit none
          = pages.flatten) ∧
    (∀ (pages : List (List JVal)) (endpoint : String) (limit : Nat) (k : Nat),
        fetch_paginated (openChainResponses pages) endpoint limit (some k)
          = (pages.take k).flatten) := by
  constructor
  · intro pages endpoint limit
    have h := fetchPaginatedGo_chain pages 0
      (endpoint ++ "?limit=" ++ toString limit ++ "&offset=0") []
      (str_append_ne_empty _ "&offset=0" (by decide))
    simpa [fetch_paginated] using h
  · intro pages endpoint limit k
    have h := fetchPaginatedGo_open pages k 0
      (endpoint ++ "?limit=" ++ toString limit ++ "&offset=0") []
      (str_append_ne_empty _ "&offset=0" (by decide))
    simpa [fetch_paginated] using h

/-- A transport outcome that ends the pagination loop abnormally: an
exception escaping `client.get`, or a response with a non-200 status. -/
def badResp : FetchResp → Prop
  | .error _ => True
  | .ok (_, status) => status ≠ 200

lemma fetchPaginatedGo_bad (pages : List (List JVal)) (r : FetchResp)
    (hr : badResp r) (rest : List FetchResp) :
    ∀ (page : Nat) (s : String) (acc : List JVal), s ≠ "" →
      fetchPaginatedGo none (openChainResponses pages ++ r :: rest) page
        (.str s) acc = acc ++ pages.flatten := by
  induction pages with
  | nil =>
      intro page s acc hs
      match r with
      | .error e =>
          simp [openChainResponses, fetchPaginatedGo, JVal.truthy, hs]
      | .ok (data, status) =>
          have hst : status ≠ 200 := hr
          simp [openChainResponses, fetchPaginatedGo, JVal.truthy, hs, hst]
  | cons p rest2 ih =>
      intro page s acc hs
      have hstep := ih (page + 1) "nextpage" (acc ++ p) (by decide)
      simp [openChainResponses, fetchPaginatedGo, JVal.truthy, hs,
        extract_items_mkBillsPage, pagination_next_mkBillsPage]
      simpa [openChainResponses, List.append_assoc] using hstep

/-- C5: whenever a page fetch yields a non-200 status code — or an
unexpected exception — after a prefix of well-formed pages,
`_fetch_paginated` stops the loop and returns exactly the items already
accumulated from the earlier pages.  The function is total (it returns a
plain item list), so no exception reaches its caller on this path. -/
theorem fetch_paginated_partial_result_tolerance
    (pages : List (List JVal)) (r : FetchResp) (rest : List FetchResp)
    (endpoint : String) (limit : Nat) (hr : badResp r) :
    fetch_paginated (openChainResponses pages ++ r :: rest) endpoint limit
      none = pages.flatten := by
  have h := fetchPaginatedGo_bad pages r hr rest 0
    (endpoint ++ "?limit=" ++ toString limit ++ "&offset=0") []
    (str_append_ne_empty _ "&offset=0" (by decide))
  simpa [fetch_paginated] using h

/-- Witness for C5 at a concrete input: one good page of one item
followed by a 500 response; the single accumulated item is returned. -/
theorem fetch_paginated_partial_result_tolerance_witness :
    fetch_paginated
      (openChainResponses [[JVal.num 1]] ++
        Except.ok (JVal.null, 500) :: []) "bill" 250 none
      = [JVal.num 1] :=
  fetch_paginated_partial_result_tolerance [[JVal.num 1]]
    (Except.ok (JVal.null, 500)) [] "bill" 250 (by simp [badResp])
/-!
## UpsertStore: `DatabaseManager.insert_bill` / `insert_member` /
`insert_amendment` / `insert_committee` (database.py)

Each insert function builds a parameter record from the raw payload and
then executes one `INSERT ... ON CONFLICT (natural key) DO UPDATE SET
<mutable columns>, updated_at = CURRENT_TIMESTAMP RETURNING id`
statement inside a `try` whose handler returns `None`.

The SQL statements' semantics is modelled by a generic keyed table: a
row stores the column record, the serial `id` (PostgreSQL serials start
at 1), and creation/update timestamps drawn from a logical clock.

Modelled from the spec: the repository's schema file
(`migrations/001_initial_schema.sql`, referenced by `verify_system.py`)
is not under src/; per the spec the natural-key fields are required
("extracts natural-key fields (required; a missing natural-key field is
a per-item failure)"), so each table model rejects an upsert whose
natural-key columns are NULL with a constraint-violation error, the way
a NOT NULL column does.
-/

/-- One stored row: the serial id, the column record, and the creation /
last-modification timestamps. -/
structure Row (π : Type) where
  id : Nat
  cols : π
  createdAt : Nat
  updatedAt : Nat
deriving DecidableEq, Repr

/-- One logical table with its serial-id counter. -/
structure Table (π : Type) where
  rows : List (Row π)
  nextId : Nat
deriving DecidableEq, Repr

/-- An empty table; PostgreSQL serial ids start at 1. -/
def Table.empty {π : Type} : Table π := ⟨[], 1⟩

/-- Semantics of one `INSERT ... ON CONFLICT DO UPDATE ... RETURNING id`
statement: `km stored incoming` compares natural-key columns, `kv`
detects a NULL natural key (constraint violation), `upd old incoming`
overwrites exactly the mutable columns listed in the statement's `DO
UPDATE SET` clause.  On conflict the stored row keeps its id and
creation timestamp and gets `updated_at = now`; otherwise a fresh row is
appended under the next serial id.  `RETURNING id` yields the row's id
on both branches. -/
def runUpsert {π : Type} (km : π → π → Bool) (kv : π → Bool)
    (upd : π → π → π) (t : Table π) (p : π) (now : Nat) :
    Except String (Table π × Nat) :=
  if kv p then
    .error "null value in natural-key column violates not-null constraint"
  else
    match t.rows.find? (fun r => km r.cols p) with
    | some r =>
        .ok ({ t with
          rows := t.rows.map (fun q =>
            if km q.cols p then
              { q with cols := upd q.cols p, updatedAt := now }
            else q) }, r.id)
    | none =>
        .ok ({ rows := t.rows ++ [⟨t.nextId, p, now, now⟩],
               nextId := t.nextId + 1 }, t.nextId)

/-- The stored rows whose natural-key columns match `p`. -/
def keyRows {π : Type} (km : π → π → Bool) (t : Table π) (p : π) :
    List (Row π) :=
  t.rows.filter (fun r => km r.cols p)

/-- The parameter record prepared by `DatabaseManager.insert_bill`
(database.py lines 130-157), one field per bound column.  Scalar columns
hold the raw `JVal` (`JVal.null` for SQL NULL), `json.dumps`-serialized
columns hold strings (`Option String` when the source wraps the dump in
`... if bill_data.get(k) else None`), `is_law` holds the derived
boolean. -/
structure BillParams where
  congress : JVal
  bill_type : JVal
  bill_number : JVal
  title : JVal
  origin_chamber : JVal
  origin_chamber_code : JVal
  update_date : JVal
  update_date_including_text : JVal
  introduced_date : JVal
  constitution_authority_statement_text : JVal
  policy_area : Option String
  subjects : Option String
  latest_action : Option String
  sponsors : String
  cosponsors_count : JVal
  committees : String
  related_bills : String
  actions : String
  summaries : String
  amendments : String
  texts : String
  titles : String
  law_number : JVal
  law_type : JVal
  is_law : Bool
  raw_data : String
deriving DecidableEq, Repr

/-- The params-dict construction of `insert_bill` (database.py lines
130-157).  It runs *before* the `try` that wraps `execute_sql`, so an
exception raised here escapes `insert_bill`.  The chain
`bill_data.get('laws', [{}])[0].get('number') if bill_data.get('laws')
else None` evaluates its condition first; when `laws` is truthy the
first element is indexed and `.get` is called on it, which raises when
that element is not a dict. -/
def prepareBillParams (bill_data : JVal) : Except PyErr BillParams := do
  let congress ← pyGet bill_data "congress"
  let bill_type ← pyGet bill_data "type"
  let bill_number ← pyGet bill_data "number"
  let title ← pyGet bill_data "title"
  let origin_chamber ← pyGet bill_data "originChamber"
  let origin_chamber_code ← pyGet bill_data "originChamberCode"
  let update_date ← pyGet bill_data "updateDate"
  let update_date_including_text ← pyGet bill_data "updateDateIncludingText"
  let introduced_date ← pyGet bill_data "introducedDate"
  let casText ← pyGet bill_data "constitutionAuthorityStatementText"
  let policyAreaV ← pyGet bill_data "policyArea"
  let subjectsV ← pyGet bill_data "subjects"
  let latestActionV ← pyGet bill_data "latestAction"
  let sponsorsV ← pyGetD bill_data "sponsors" (jarr [])
  let cosponsors_count ← pyGetD bill_data "cosponsorsCount" (JVal.num 0)
  let committeesV ← pyGetD bill_data "committees" (jarr [])
  let relatedBillsV ← pyGetD bill_data "relatedBills" (jarr [])
  let actionsV ← pyGetD bill_data "actions" (jarr [])
  let summariesV ← pyGetD bill_data "summaries" (jarr [])
  let amendmentsV ← pyGetD bill_data "amendments" (jarr [])
  let textsV ← pyGetD bill_data "texts" (jarr [])
  let titlesV ← pyGetD bill_data "titles" (jarr [])
  let lawsV ← pyGet bill_data "laws"
  let law_number ←
    if lawsV.truthy then do
      let lawsL ← pyGetD bill_data "laws" (jarr [jobj []])
      let firstLaw ← pyIndex lawsL 0
      pyGet firstLaw "number"
    else pure JVal.null
  let law_type ←
    if lawsV.truthy then do
      let lawsL ← pyGetD bill_data "laws" (jarr [jobj []])
      let firstLaw ← pyIndex lawsL 0
      pyGet firstLaw "type"
    else pure JVal.null
  pure {
    congress := congress
    bill_type := bill_type
    bill_number := bill_number
    title := title
    origin_chamber := origin_chamber
    origin_chamber_code := origin_chamber_code
    update_date := update_date
    update_date_including_text := update_date_including_text
    introduced_date := introduced_date
    constitution_authority_statement_text := casText
    policy_area := if policyAreaV.truthy then some (dumps policyAreaV) else none
    subjects := if subjectsV.truthy then some (dumps subjectsV) else none
    latest_action := if latestActionV.truthy then some (dumps latestActionV) else none
    sponsors := dumps sponsorsV
    cosponsors_count := cosponsors_count
    committees := dumps committeesV
    related_bills := dumps relatedBillsV
    actions := dumps actionsV
    summaries := dumps summariesV
    amendments := dumps amendmentsV
    texts := dumps textsV
    titles := dumps titlesV
    law_number := law_number
    law_type := law_type
    is_law := lawsV.truthy
    raw_data := dumps bill_data }

/-- Natural-key comparison of the `bills` upsert:
`ON CONFLICT (congress, bill_type, bill_number)`. -/
def billSameKey (a b : BillParams) : Bool :=
  a.congress = b.congress && a.bill_type = b.bill_type &&
    a.bill_number = b.bill_number

/-- NULL natural-key detection for `bills` (see the module comment: the
NOT NULL constraint is modelled from the spec, the schema file being
outside src/). -/
def billKeyNull (p : BillParams) : Bool :=
  p.congress = JVal.null || p.bill_type = JVal.null ||
    p.bill_number = JVal.null

/-- The `DO UPDATE SET` clause of the `bills` upsert (database.py lines
110-125): exactly title, update_date, update_date_including_text,
latest_action, cosponsors_count, actions, summaries, amendments, texts,
titles, is_law, law_number, law_type and raw_data are overwritten; the
natural-key columns and all other columns keep their stored values. -/
def updateBillCols (old incoming : BillParams) : BillParams :=
  { old with
    title := incoming.title
    update_date := incoming.update_date
    update_date_including_text := incoming.update_date_including_text
    latest_action := incoming.latest_action
    cosponsors_count := incoming.cosponsors_count
    actions := incoming.actions
    summaries := incoming.summaries
    amendments := incoming.amendments
    texts := incoming.texts
    titles := incoming.titles
    is_law := incoming.is_law
    law_number := incoming.law_number
    law_type := incoming.law_type
    raw_data := incoming.raw_data }

/-- The `bills` table. -/
abbrev BillsTable := Table BillParams

/-- The `bills` upsert statement of `insert_bill`. -/
def runBillUpsert (t : BillsTable) (p : BillParams) (now : Nat) :
    Except String (BillsTable × Nat) :=
  runUpsert (fun a b => billSameKey a b) billKeyNull updateBillCols t p now

/-- `DatabaseManager.insert_bill` with the database execution abstracted:
`dbExec p` is the outcome of `execute_sql` on the prepared parameters
(the id rows of `RETURNING id`, or a raised exception).  Parameter
preparation precedes the `try`, so its exceptions escape; the `try`
turns every `execute_sql` exception into `None`; `result[0]['id'] if
result else None` is `rows.head?`. -/
def insert_bill (dbExec : BillParams → Except String (List Nat))
    (bill_data : JVal) : Except PyErr (Option Nat) := do
  let p ← prepareBillParams bill_data
  pure (match dbExec p with
        | .ok rows => rows.head?
        | .error _ => none)

/-- `insert_bill` with `execute_sql` connected to the `bills` table
semantics: a successful statement commits the new table state and
returns the id; a constraint violation is caught by the `except`
(the session rolls back, leaving the table unchanged) and yields
`None`. -/
def insertBillDb (t : BillsTable) (bill_data : JVal) (now : Nat) :
    Except PyErr (BillsTable × Option Nat) := do
  let p ← prepareBillParams bill_data
  pure (match runBillUpsert t p now with
        | .ok (t2, rid) => (t2, some rid)
        | .error _ => (t, none))

/-- The parameter record prepared by `DatabaseManager.insert_member`
(database.py lines 190-203). -/
structure MemberParams where
  bioguide_id : JVal
  first_name : JVal
  last_name : JVal
  middle_name : JVal
  suffix : JVal
  nickname : JVal
  party : JVal
  state : JVal
  district : JVal
  birth_year : JVal
  death_year : JVal
  terms : String
deriving DecidableEq, Repr

/-- The params-dict construction of `insert_member`: plain `.get` calls
on the payload plus `json.dumps(member_data.get('terms', []))`. -/
def prepareMemberParams (member_data : JVal) : Except PyErr MemberParams := do
  let bioguide_id ← pyGet member_data "bioguideId"
  let first_name ← pyGet member_data "firstName"
  let last_name ← pyGet member_data "lastName"
  let middle_name ← pyGet member_data "middleName"
  let suffix ← pyGet member_data "suffix"
  let nickname ← pyGet member_data "nickname"
  let party ← pyGet member_data "party"
  let state ← pyGet member_data "state"
  let district ← pyGet member_data "district"
  let birth_year ← pyGet member_data "birthYear"
  let death_year ← pyGet member_data "deathYear"
  let termsV ← pyGetD member_data "terms" (jarr [])
  pure {
    bioguide_id := bioguide_id
    first_name := first_name
    last_name := last_name
    middle_name := middle_name
    suffix := suffix
    nickname := nickname
    party := party
    state := state
    district := district
    birth_year := birth_year
    death_year := death_year
    terms := dumps termsV }

/-- `ON CONFLICT (bioguide_id)`. -/
def memberSameKey (a b : MemberParams) : Bool :=
  a.bioguide_id = b.bioguide_id

/-- NULL natural key for `members` (constraint modelled from the spec,
see the module comment). -/
def memberKeyNull (p : MemberParams) : Bool :=
  p.bioguide_id = JVal.null

/-- The `DO UPDATE SET` clause of the `members` upsert (database.py
lines 179-186): exactly first_name, last_name, party, state, district
and terms are overwritten; middle_name, suffix, nickname, birth_year and
death_year keep their stored values. -/
def updateMemberCols (old incoming : MemberParams) : MemberParams :=
  { old with
    first_name := incoming.first_name
    last_name := incoming.last_name
    party := incoming.party
    state := incoming.state
    district := incoming.district
    terms := incoming.terms }

/-- The `members` table. -/
abbrev MembersTable := Table MemberParams

/-- The `members` upsert statement of `insert_member`. -/
def runMemberUpsert (t : MembersTable) (p : MemberParams) (now : Nat) :
    Except String (MembersTable × Nat) :=
  runUpsert (fun a b => memberSameKey a b) memberKeyNull updateMemberCols t p now

/-- `DatabaseManager.insert_member` with the database execution
abstracted (same shape as `insert_bill`). -/
def insert_member (dbExec : MemberParams → Except String (List Nat))
    (member_data : JVal) : Except PyErr (Option Nat) := do
  let p ← prepareMemberParams member_data
  pure (match dbExec p with
        | .ok rows => rows.head?
        | .error _ => none)

/-- `insert_member` connected to the `members` table semantics. -/
def insertMemberDb (t : MembersTable) (member_data : JVal) (now : Nat) :
    Except PyErr (MembersTable × Option Nat) := do
  let p ← prepareMemberParams member_data
  pure (match runMemberUpsert t p now with
        | .ok (t2, rid) => (t2, some rid)
        | .error _ => (t, none))

/-- The parameter record prepared by `DatabaseManager.insert_amendment`
(database.py lines 237-255). -/
structure AmendmentParams where
  congress : JVal
  amendment_type : JVal
  amendment_number : JVal
  bill_congress : JVal
  bill_type : JVal
  bill_number : JVal
  purpose : JVal
  description : JVal
  chamber : JVal
  amendment_to_amendment : Option String
  sponsors : String
  cosponsors : String
  proposed_date : JVal
  submitted_date : JVal
  latest_action : Option String
  actions : String
  raw_data : String
deriving DecidableEq, Repr

/-- The params-dict construction of `insert_amendment`.  The chain
`amendment_data.get('amendedBill', {}).get('congress')` calls `.get` on
whatever value sits under `amendedBill`, raising when it is neither
absent nor a dict. -/
def prepareAmendmentParams (amendment_data : JVal) :
    Except PyErr AmendmentParams := do
  let congress ← pyGet amendment_data "congress"
  let amendment_type ← pyGet amendment_data "type"
  let amendment_number ← pyGet amendment_data "number"
  let amendedBill ← pyGetD amendment_data "amendedBill" (jobj [])
  let bill_congress ← pyGet amendedBill "congress"
  let bill_type ← pyGet amendedBill "type"
  let bill_number ← pyGet amendedBill "number"
  let purpose ← pyGet amendment_data "purpose"
  let description ← pyGet amendment_data "description"
  let chamber ← pyGet amendment_data "chamber"
  let amendedAmendment ← pyGet amendment_data "amendedAmendment"
  let sponsorsV ← pyGetD amendment_data "sponsors" (jarr [])
  let cosponsorsV ← pyGetD amendment_data "cosponsors" (jarr [])
  let proposed_date ← pyGet amendment_data "proposedDate"
  let submitted_date ← pyGet amendment_data "submittedDate"
  let latestActionV ← pyGet amendment_data "latestAction"
  let actionsV ← pyGetD amendment_data "actions" (jarr [])
  pure {
    congress := congress
    amendment_type := amendment_type
    amendment_number := amendment_number
    bill_congress := bill_congress
    bill_type := bill_type
    bill_number := bill_number
    purpose := purpose
    description := description
    chamber := chamber
    amendment_to_amendment :=
      if amendedAmendment.truthy then some (dumps amendedAmendment) else none
    sponsors := dumps sponsorsV
    cosponsors := dumps cosponsorsV
    proposed_date := proposed_date
    submitted_date := submitted_date
    latest_action :=
      if latestActionV.truthy then some (dumps latestActionV) else none
    actions := dumps actionsV
    raw_data := dumps amendment_data }

/-- `ON CONFLICT (congress, amendment_type, amendment_number)`. -/
def amendmentSameKey (a b : AmendmentParams) : Bool :=
  a.congress = b.congress && a.amendment_type = b.amendment_type &&
    a.amendment_number = b.amendment_number

/-- NULL natural key for `amendments` (constraint modelled from the
spec, see the module comment). -/
def amendmentKeyNull (p : AmendmentParams) : Bool :=
  p.congress = JVal.null || p.amendment_type = JVal.null ||
    p.amendment_number = JVal.null

/-- The `DO UPDATE SET` clause of the `amendments` upsert (database.py
lines 227-233): exactly purpose, description, latest_action, actions and
raw_data are overwritten. -/
def updateAmendmentCols (old incoming : AmendmentParams) : AmendmentParams :=
  { old with
    purpose := incoming.purpose
    description := incoming.description
    latest_action := incoming.latest_action
    actions := incoming.actions
    raw_data := incoming.raw_data }

/-- The `amendments` table. -/
abbrev AmendmentsTable := Table AmendmentParams

/-- The `amendments` upsert statement of `insert_amendment`. -/
def runAmendmentUpsert (t : AmendmentsTable) (p : AmendmentParams)
    (now : Nat) : Except String (AmendmentsTable × Nat) :=
  runUpsert (fun a b => amendmentSameKey a b) amendmentKeyNull
    updateAmendmentCols t p now

/-- `DatabaseManager.insert_amendment` with the database execution
abstracted. -/
def insert_amendment (dbExec : AmendmentParams → Except String (List Nat))
    (amendment_data : JVal) : Except PyErr (Option Nat) := do
  let p ← prepareAmendmentParams amendment_data
  pure (match dbExec p with
        | .ok rows => rows.head?
        | .error _ => none)

/-- `insert_amendment` connected to the `amendments` table semantics. -/
def insertAmendmentDb (t : AmendmentsTable) (amendment_data : JVal)
    (now : Nat) : Except PyErr (AmendmentsTable × Option Nat) := do
  let p ← prepareAmendmentParams amendment_data
  pure (match runAmendmentUpsert t p now with
        | .ok (t2, rid) => (t2, some rid)
        | .error _ => (t, none))

/-- The parameter record prepared by `DatabaseManager.insert_committee`
(database.py lines 284-292); `ctype` stands for the source's `type`
column. -/
structure CommitteeParams where
  system_code : JVal
  name : JVal
  chamber : JVal
  ctype : JVal
  subcommittees : String
  parent_committee_system_code : JVal
  is_subcommittee : JVal
deriving DecidableEq, Repr

/-- The params-dict construction of `insert_committee`; note the source
binds `is_subcommittee` to `committee_data.get('isCurrent', False)`. -/
def prepareCommitteeParams (committee_data : JVal) :
    Except PyErr CommitteeParams := do
  let system_code ← pyGet committee_data "systemCode"
  let name ← pyGet committee_data "name"
  let chamber ← pyGet committee_data "chamber"
  let ctype ← pyGet committee_data "type"
  let subcommitteesV ← pyGetD committee_data "subcommittees" (jarr [])
  let parentCode ← pyGet committee_data "parentCommitteeCode"
  let is_subcommittee ← pyGetD committee_data "isCurrent" (JVal.bool false)
  pure {
    system_code := system_code
    name := name
    chamber := chamber
    ctype := ctype
    subcommittees := dumps subcommitteesV
    parent_committee_system_code := parentCode
    is_subcommittee := is_subcommittee }

/-- `ON CONFLICT (system_code)`. -/
def committeeSameKey (a b : CommitteeParams) : Bool :=
  a.system_code = b.system_code

/-- NULL natural key for `committees` (constraint modelled from the
spec, see the module comment). -/
def committeeKeyNull (p : CommitteeParams) : Bool :=
  p.system_code = JVal.null

/-- The `DO UPDATE SET` clause of the `committees` upsert (database.py
lines 275-280): exactly name, chamber, type and subcommittees are
overwritten. -/
def updateCommitteeCols (old incoming : CommitteeParams) : CommitteeParams :=
  { old with
    name := incoming.name
    chamber := incoming.chamber
    ctype := incoming.ctype
    subcommittees := incoming.subcommittees }

/-- The `committees` table. -/
abbrev CommitteesTable := Table CommitteeParams

/-- The `committees` upsert statement of `insert_committee`. -/
def runCommitteeUpsert (t : CommitteesTable) (p : CommitteeParams)
    (now : Nat) : Except String (CommitteesTable × Nat) :=
  runUpsert (fun a b => committeeSameKey a b) committeeKeyNull
    updateCommitteeCols t p now

/-- `DatabaseManager.insert_committee` with the database execution
abstracted. -/
def insert_committee (dbExec : CommitteeParams → Except String (List Nat))
    (committee_data : JVal) : Except PyErr (Option Nat) := do
  let p ← prepareCommitteeParams committee_data
  pure (match dbExec p with
        | .ok rows => rows.head?
        | .error _ => none)

/-- `insert_committee` connected to the `committees` table semantics. -/
def insertCommitteeDb (t : CommitteesTable) (committee_data : JVal)
    (now : Nat) : Except PyErr (CommitteesTable × Option Nat) := do
  let p ← prepareCommitteeParams committee_data
  pure (match runCommitteeUpsert t p now with
        | .ok (t2, rid) => (t2, some rid)
        | .error _ => (t, none))

lemma runUpsert_fresh {π : Type} (km : π → π → Bool) (kv : π → Bool)
    (upd : π → π → π) (t : Table π) (p : π) (now : Nat)
    (hkv : kv p = false)
    (hfresh : ∀ r ∈ t.rows, km r.cols p = false) :
    runUpsert km kv upd t p now =
      .ok ({ rows := t.rows ++ [⟨t.nextId, p, now, now⟩],
             nextId := t.nextId + 1 }, t.nextId) := by
  have hf : t.rows.find? (fun r => km r.cols p) = none := by
    rw [List.find?_eq_none]
    intro r hr
    simp [hfresh r hr]
  simp [runUpsert, hkv, hf]

lemma runUpsert_twice_fresh {π : Type} (km : π → π → Bool) (kv : π → Bool)
    (upd : π → π → π) (t : Table π) (p1 p2 : π) (now1 now2 : Nat)
    (hkv1 : kv p1 = false) (hkv2 : kv p2 = false)
    (hm11 : km p1 p1 = true) (hm12 : km p1 p2 = true)
    (hupdm : km (upd p1 p2) p2 = true)
    (hfresh1 : ∀ r ∈ t.rows, km r.cols p1 = false)
    (hfresh2 : ∀ r ∈ t.rows, km r.cols p2 = false) :
    ∃ t1 t2,
      runUpsert km kv upd t p1 now1 = .ok (t1, t.nextId) ∧
      runUpsert km kv upd t1 p2 now2 = .ok (t2, t.nextId) ∧
      keyRows km t1 p1 = [⟨t.nextId, p1, now1, now1⟩] ∧
      keyRows km t2 p2 = [⟨t.nextId, upd p1 p2, now1, now2⟩] := by
  have h1 := runUpsert_fresh km kv upd t p1 now1 hkv1 hfresh1
  refine ⟨{ rows := t.rows ++ [⟨t.nextId, p1, now1, now1⟩],
            nextId := t.nextId + 1 },
          { rows := t.rows ++ [⟨t.nextId, upd p1 p2, now1, now2⟩],
            nextId := t.nextId + 1 },
          h1, ?_, ?_, ?_⟩
  · have hnone : t.rows.find? (fun r => km r.cols p2) = none := by
      rw [List.find?_eq_none]
      intro r hr
      simp [hfresh2 r hr]
    have hfind : (t.rows ++ [(⟨t.nextId, p1, now1, now1⟩ : Row π)]).find?
        (fun r => km r.cols p2) = some ⟨t.nextId, p1, now1, now1⟩ := by
      rw [List.find?_append, hnone]
      simp [List.find?, hm12]
    have hmap : (t.rows ++ [(⟨t.nextId, p1, now1, now1⟩ : Row π)]).map
        (fun q => if km q.cols p2 then
          { q with cols := upd q.cols p2, updatedAt := now2 } else q)
        = t.rows ++ [⟨t.nextId, upd p1 p2, now1, now2⟩] := by
      rw [List.map_append]
      congr 1
      · conv_rhs => rw [show t.rows = t.rows.map id from (List.map_id _).symm]
        apply List.map_congr_left
        intro q hq
        simp [hfresh2 q hq]
      · simp [hm12]
    simp [runUpsert, hkv2, hfind, hmap]
  · show ((t.rows ++ [(⟨t.nextId, p1, now1, now1⟩ : Row π)]).filter
      (fun r => km r.cols p1)) = _
    rw [List.filter_append]
    have hnil : t.rows.filter (fun r => km r.cols p1) = [] := by
      rw [List.filter_eq_nil_iff]
      intro r hr
      simp [hfresh1 r hr]
    simp [hnil, hm11]
  · show ((t.rows ++ [(⟨t.nextId, upd p1 p2, now1, now2⟩ : Row π)]).filter
      (fun r => km r.cols p2)) = _
    rw [List.filter_append]
    have hnil : t.rows.filter (fun r => km r.cols p2) = [] := by
      rw [List.filter_eq_nil_iff]
      intro r hr
      simp [hfresh2 r hr]
    simp [hnil, hupdm]

/-- C1: upsert is idempotent with latest-wins semantics.  For every raw
bill payload whose prepared parameters carry a non-null natural key, two
successive `insert_bill` calls against a store holding no row for that
key succeed, return the same row id, and leave exactly one stored row
for the natural key whose columns — every mutable field included — equal
the values prepared from the most recently ingested payload, with the
last-modified timestamp from the second call. -/
theorem insert_bill_idempotent_latest_wins
    (bill_data : JVal) (p : BillParams) (t : BillsTable) (now1 now2 : Nat)
    (hprep : prepareBillParams bill_data = .ok p)
    (hkey : billKeyNull p = false)
    (hfresh : ∀ r ∈ t.rows, billSameKey r.cols p = false) :
    ∃ t1 t2,
      insertBillDb t bill_data now1 = .ok (t1, some t.nextId) ∧
      insertBillDb t1 bill_data now2 = .ok (t2, some t.nextId) ∧
      keyRows (fun a b => billSameKey a b) t2 p
        = [⟨t.nextId, p, now1, now2⟩] := by
  have hm : billSameKey p p = true := by simp [billSameKey]
  obtain ⟨t1, t2, h1, h2, hk1, hk2⟩ :=
    runUpsert_twice_fresh (fun a b => billSameKey a b) billKeyNull
      updateBillCols t p p now1 now2 hkey hkey hm hm hm hfresh hfresh
  refine ⟨t1, t2, ?_, ?_, hk2⟩
  · simp [insertBillDb, hprep, runBillUpsert, h1]
  · simp [insertBillDb, hprep, runBillUpsert, h2]

/-- A bill payload with natural key 118/hr/5 and a present title. -/
def c1Payload : JVal :=
  jobj [("congress", .num 118), ("type", .str "hr"),
        ("number", .num 5), ("title", .str "T")]

/-- A bill parameter record with the given natural key, title and raw
payload and every other column at its prepared default. -/
def simpleBillParams (c ty n ttl : JVal) (raw : String) : BillParams :=
  { congress := c
    bill_type := ty
    bill_number := n
    title := ttl
    origin_chamber := .null
    origin_chamber_code := .null
    update_date := .null
    update_date_including_text := .null
    introduced_date := .null
    constitution_authority_statement_text := .null
    policy_area := none
    subjects := none
    latest_action := none
    sponsors := "[]"
    cosponsors_count := .num 0
    committees := "[]"
    related_bills := "[]"
    actions := "[]"
    summaries := "[]"
    amendments := "[]"
    texts := "[]"
    titles := "[]"
    law_number := .null
    law_type := .null
    is_law := false
    raw_data := raw }

/-- Witness for C1 at the concrete payload `c1Payload` against an empty
store. -/
theorem insert_bill_idempotent_latest_wins_witness :
    ∃ t1 t2,
      insertBillDb Table.empty c1Payload 0 = .ok (t1, some 1) ∧
      insertBillDb t1 c1Payload 1 = .ok (t2, some 1) ∧
      keyRows (fun a b => billSameKey a b) t2
        (simpleBillParams (.num 118) (.str "hr") (.num 5) (.str "T")
          (dumps c1Payload))
        = [⟨1, simpleBillParams (.num 118) (.str "hr") (.num 5) (.str "T")
            (dumps c1Payload), 0, 1⟩] :=
  insert_bill_idempotent_latest_wins c1Payload
    (simpleBillParams (.num 118) (.str "hr") (.num 5) (.str "T")
      (dumps c1Payload))
    Table.empty 0 1 rfl rfl
    (by intro r hr; simp [Table.empty] at hr)

/-- C7: natural-key immutability (frame property of the upsert).  For
bills and amendments alike: starting from a store without the key, two
ingestions of the same natural key with arbitrary (possibly different)
non-key fields leave exactly one row for that key, whose natural-key
columns equal the first ingestion's key columns unchanged — the `DO
UPDATE SET` clause touches only mutable columns — and whose creation
timestamp still comes from the first ingestion. -/
theorem upsert_natural_key_immutability :
    (∀ (t : BillsTable) (p1 p2 : BillParams) (now1 now2 : Nat),
      billKeyNull p1 = false → billKeyNull p2 = false →
      billSameKey p1 p2 = true →
      (∀ r ∈ t.rows, billSameKey r.cols p1 = false) →
      (∀ r ∈ t.rows, billSameKey r.cols p2 = false) →
      ∃ t1 t2,
        runBillUpsert t p1 now1 = .ok (t1, t.nextId) ∧
        runBillUpsert t1 p2 now2 = .ok (t2, t.nextId) ∧
        ∃ r2, keyRows (fun a b => billSameKey a b) t2 p2 = [r2] ∧
          r2.cols.congress = p1.congress ∧
          r2.cols.bill_type = p1.bill_type ∧
          r2.cols.bill_number = p1.bill_number ∧
          r2.createdAt = now1) ∧
    (∀ (t : AmendmentsTable) (p1 p2 : AmendmentParams) (now1 now2 : Nat),
      amendmentKeyNull p1 = false → amendmentKeyNull p2 = false →
      amendmentSameKey p1 p2 = true →
      (∀ r ∈ t.rows, amendmentSameKey r.cols p1 = false) →
      (∀ r ∈ t.rows, amendmentSameKey r.cols p2 = false) →
      ∃ t1 t2,
        runAmendmentUpsert t p1 now1 = .ok (t1, t.nextId) ∧
        runAmendmentUpsert t1 p2 now2 = .ok (t2, t.nextId) ∧
        ∃ r2, keyRows (fun a b => amendmentSameKey a b) t2 p2 = [r2] ∧
          r2.cols.congress = p1.congress ∧
          r2.cols.amendment_type = p1.amendment_type ∧
          r2.cols.amendment_number = p1.amendment_number ∧
          r2.createdAt = now1) := by
  constructor
  · intro t p1 p2 now1 now2 hkv1 hkv2 hm12 hfresh1 hfresh2
    have hm11 : billSameKey p1 p1 = true := by simp [billSameKey]
    have hupdm : billSameKey (updateBillCols p1 p2) p2 = true := hm12
    obtain ⟨t1, t2, h1, h2, hk1, hk2⟩ :=
      runUpsert_twice_fresh (fun a b => billSameKey a b) billKeyNull
        updateBillCols t p1 p2 now1 now2 hkv1 hkv2 hm11 hm12 hupdm
        hfresh1 hfresh2
    exact ⟨t1, t2, h1, h2, ⟨t.nextId, updateBillCols p1 p2, now1, now2⟩,
      hk2, rfl, rfl, rfl, rfl⟩
  · intro t p1 p2 now1 now2 hkv1 hkv2 hm12 hfresh1 hfresh2
    have hm11 : amendmentSameKey p1 p1 = true := by simp [amendmentSameKey]
    have hupdm : amendmentSameKey (updateAmendmentCols p1 p2) p2 = true := hm12
    obtain ⟨t1, t2, h1, h2, hk1, hk2⟩ :=
      runUpsert_twice_fresh (fun a b => amendmentSameKey a b) amendmentKeyNull
        updateAmendmentCols t p1 p2 now1 now2 hkv1 hkv2 hm11 hm12 hupdm
        hfresh1 hfresh2
    exact ⟨t1, t2, h1, h2, ⟨t.nextId, updateAmendmentCols p1 p2, now1, now2⟩,
      hk2, rfl, rfl, rfl, rfl⟩

/-- An amendment parameter record with the given natural key and purpose
and every other column at its prepared default. -/
def simpleAmendmentParams (c ty n purp : JVal) (raw : String) :
    AmendmentParams :=
  { congress := c
    amendment_type := ty
    amendment_number := n
    bill_congress := .null
    bill_type := .null
    bill_number := .null
    purpose := purp
    description := .null
    chamber := .null
    amendment_to_amendment := none
    sponsors := "[]"
    cosponsors := "[]"
    proposed_date := .null
    submitted_date := .null
    latest_action := none
    actions := "[]"
    raw_data := raw }

/-- Witness for C7: concrete second ingestions that change the title of
a bill and the purpose of an amendment; the key columns and creation
timestamps survive both. -/
theorem upsert_natural_key_immutability_witness :
    (∃ t1 t2,
      runBillUpsert Table.empty
        (simpleBillParams (.num 118) (.str "hr") (.num 5) (.str "A") "r1")
        0 = .ok (t1, 1) ∧
      runBillUpsert t1
        (simpleBillParams (.num 118) (.str "hr") (.num 5) (.str "B") "r2")
        1 = .ok (t2, 1) ∧
      ∃ r2, keyRows (fun a b => billSameKey a b) t2
          (simpleBillParams (.num 118) (.str "hr") (.num 5) (.str "B") "r2")
          = [r2] ∧
        r2.cols.congress = JVal.num 118 ∧
        r2.cols.bill_type = JVal.str "hr" ∧
        r2.cols.bill_number = JVal.num 5 ∧
        r2.createdAt = 0) ∧
    (∃ t1 t2,
      runAmendmentUpsert Table.empty
        (simpleAmendmentParams (.num 118) (.str "samdt") (.num 7)
          (.str "P1") "r1") 0 = .ok (t1, 1) ∧
      runAmendmentUpsert t1
        (simpleAmendmentParams (.num 118) (.str "samdt") (.num 7)
          (.str "P2") "r2") 1 = .ok (t2, 1) ∧
      ∃ r2, keyRows (fun a b => amendmentSameKey a b) t2
          (simpleAmendmentParams (.num 118) (.str "samdt") (.num 7)
            (.str "P2") "r2")
          = [r2] ∧
        r2.cols.congress = JVal.num 118 ∧
        r2.cols.amendment_type = JVal.str "samdt" ∧
        r2.cols.amendment_number = JVal.num 7 ∧
        r2.createdAt = 0) :=
  ⟨upsert_natural_key_immutability.1 Table.empty
      (simpleBillParams (.num 118) (.str "hr") (.num 5) (.str "A") "r1")
      (simpleBillParams (.num 118) (.str "hr") (.num 5) (.str "B") "r2")
      0 1 (by decide) (by decide) (by decide)
      (by intro r hr; simp [Table.empty] at hr)
      (by intro r hr; simp [Table.empty] at hr),
   upsert_natural_key_immutability.2 Table.empty
      (simpleAmendmentParams (.num 118) (.str "samdt") (.num 7)
        (.str "P1") "r1")
      (simpleAmendmentParams (.num 118) (.str "samdt") (.num 7)
        (.str "P2") "r2")
      0 1 (by decide) (by decide) (by decide)
      (by intro r hr; simp [Table.empty] at hr)
      (by intro r hr; simp [Table.empty] at hr)⟩

deriving instance DecidableEq for Except

/-- C10 counterexample: `insert_bill` *can* propagate an exception.  The
params dict is built before the `try`, and on the payload
`\x7b"laws": [1]\x7d` the chain `bill_data.get('laws', [{}])[0].get('number')`
calls `.get` on the integer `1`, raising an `AttributeError` that
escapes `insert_bill` — it is not turned into a `None` return, whatever
the database would have answered. -/
theorem insert_bill_param_prep_raises :
    insert_bill (fun _ => Except.ok [1]) (jobj [("laws", jarr [JVal.num 1])])
      = .error PyErr.attributeError := rfl

/-- C10 amended: the `try` in each store insert catches exactly the
database-execution step, so for every input whose parameter preparation
succeeds — which is every input dict for `insert_member` and
`insert_committee` — the function never propagates an exception, and a
raised `execute_sql` error is surfaced only as a `None` return (an empty
id result likewise); exceptions raised while preparing parameters
(possible in `insert_bill` and `insert_amendment`) do escape. -/
theorem insert_store_catches_db_errors :
    (∀ (dbExec : BillParams → Except String (List Nat)) (bd : JVal)
        (p : BillParams), prepareBillParams bd = .ok p →
        insert_bill dbExec bd
          = .ok (match dbExec p with
                 | .ok rows => rows.head?
                 | .error _ => none)) ∧
    (∀ (dbExec : AmendmentParams → Except String (List Nat)) (ad : JVal)
        (p : AmendmentParams), prepareAmendmentParams ad = .ok p →
        insert_amendment dbExec ad
          = .ok (match dbExec p with
                 | .ok rows => rows.head?
                 | .error _ => none)) ∧
    (∀ (dbExec : MemberParams → Except String (List Nat)) (o : JObj),
        ∃ v, insert_member dbExec (.obj o) = .ok v) ∧
    (∀ (dbExec : CommitteeParams → Except String (List Nat)) (o : JObj),
        ∃ v, insert_committee dbExec (.obj o) = .ok v) := by
  refine ⟨?_, ?_, ?_, ?_⟩
  · intro dbExec bd p hprep
    simp [insert_bill, hprep]
  · intro dbExec ad p hprep
    simp [insert_amendment, hprep]
  · intro dbExec o
    exact ⟨_, rfl⟩
  · intro dbExec o
    exact ⟨_, rfl⟩

/-- Witness for the amended C10: a database failure during `insert_bill`
and `insert_amendment` yields a `None` return, not an exception. -/
theorem insert_store_catches_db_errors_witness :
    insert_bill (fun _ => Except.error "connection lost") c1Payload
      = .ok none ∧
    insert_amendment (fun _ => Except.error "connection lost")
      (jobj [("congress", .num 118), ("type", .str "samdt"),
             ("number", .num 7)])
      = .ok none :=
  ⟨insert_store_catches_db_errors.1 _ c1Payload _ rfl,
   insert_store_catches_db_errors.2.1 _
     (jobj [("congress", .num 118), ("type", .str "samdt"),
            ("number", .num 7)]) _ rfl⟩

/-!
## DetailEnricher: the title-driven detail fetch of
`BulkIngestor.ingest_bills` (bulk_ingest.py lines 167-175)
-/

/-- The API base stripped from an item's self link. -/
def apiBase : String := "https://api.congress.gov/v3/"

/-- The detail-enrichment step of `ingest_bills`: when the item lacks a
truthy `title`, the detail endpoint is derived from the item's `url` by
stripping the API base; when that yields a non-empty path the detail
response is fetched (an escaping transport exception propagates to the
per-item handler) and the item is replaced by
`detail_data.get('bill', bill_data)`. -/
def enrichBill (detailGet : String → Except String JVal) (bill_data : JVal) :
    Except PyErr JVal := do
  let hasTitle ← pyContains bill_data "title"
  let needsDetail ←
    if hasTitle then do
      let t ← pyGet bill_data "title"
      pure (!t.truthy)
    else pure true
  if needsDetail then do
    let urlV ← pyGetD bill_data "url" (.str "")
    let detail_endpoint ← pyReplace urlV apiBase ""
    if detail_endpoint ≠ "" then
      match detailGet detail_endpoint with
      | .error e => .error (.fetchError e)
      | .ok detail_data => pyGetD detail_data "bill" bill_data
    else pure bill_data
  else pure bill_data

/-- Entries of the first dict whose key is absent from the second. -/
def JObj.filterKeysNotIn : JObj → JObj → JObj
  | .nil, _ => .nil
  | .cons k v t, d =>
      if d.hasKey k then t.filterKeysNotIn d
      else .cons k v (t.filterKeysNotIn d)

/-- Concatenation of two dicts. -/
def JObj.append : JObj → JObj → JObj
  | .nil, b => b
  | .cons k v t, b => .cons k v (t.append b)

/-- Modelled from the spec's words (refinement target for C8): "merge
the detail response's nested entity object over the original item
(detail response wins on overlapping fields)" — the original item's
fields survive unless the detail object overrides them. -/
def specDetailMerge (orig detail : JObj) : JObj :=
  (orig.filterKeysNotIn detail).append detail

/-- C8 counterexample: at a concrete title-less item carrying a `number`
field and a self link, the code *replaces* the item wholesale with the
detail response's `bill` object — the original `number` field is gone —
whereas the claimed merge-over semantics would have kept it.  The two
results differ. -/
theorem enrich_replaces_instead_of_merging :
    enrichBill
      (fun _ => Except.ok (jobj [("bill", jobj [("title", .str "An Act")])]))
      (jobj [("number", .num 5),
             ("url", .str "https://api.congress.gov/v3/bill/118/hr/5")])
      = .ok (jobj [("title", .str "An Act")]) ∧
    JVal.obj (specDetailMerge
        (JObj.ofList [("number", .num 5),
          ("url", .str "https://api.congress.gov/v3/bill/118/hr/5")])
        (JObj.ofList [("title", .str "An Act")]))
      ≠ jobj [("title", .str "An Act")] := by
  constructor
  · rfl
  · decide

/-- C8 amended: for an item without a `title` key, the enrichment step
derives the detail path by stripping the API base from the item's `url`
link and then *replaces the item wholesale* with the detail response's
nested `bill` object (the original item survives only as the default
when the detail response has no `bill` key); an item with no derivable
link is processed unchanged; and a transport failure during the detail
fetch propagates to the caller (the orchestrator's per-item handler)
rather than being swallowed. -/
theorem enrich_detail_wholesale_replacement :
    (∀ (detailGet : String → Except String JVal) (o : JObj) (u : String)
        (d : JObj) (b : JVal),
      o.hasKey "title" = false →
      o.lookup "url" = some (.str u) →
      pyStrReplace u apiBase "" ≠ "" →
      detailGet (pyStrReplace u apiBase "") = .ok (.obj d) →
      d.lookup "bill" = some b →
      enrichBill detailGet (.obj o) = .ok b) ∧
    (∀ (detailGet : String → Except String JVal) (o : JObj),
      o.hasKey "title" = false →
      o.lookup "url" = none →
      enrichBill detailGet (.obj o) = .ok (.obj o)) ∧
    (∀ (detailGet : String → Except String JVal) (o : JObj)
        (u : String) (e : String),
      o.hasKey "title" = false →
      o.lookup "url" = some (.str u) →
      pyStrReplace u apiBase "" ≠ "" →
      detailGet (pyStrReplace u apiBase "") = .error e →
      enrichBill detailGet (.obj o) = .error (.fetchError e)) := by
  refine ⟨?_, ?_, ?_⟩
  · intro detailGet o u d b htitle hurl hep hget hbill
    simp [enrichBill, pyContains, pyGet, pyGetD, pyReplace, htitle, hurl,
      hep, hget, hbill, bind, Except.bind, pure, Except.pure]
  · intro detailGet o htitle hurl
    have hempty : pyStrReplace "" apiBase "" = "" := rfl
    simp [enrichBill, pyContains, pyGet, pyGetD, pyReplace, htitle, hurl,
      hempty, bind, Except.bind, pure, Except.pure]
  · intro detailGet o u e htitle hurl hep hget
    simp [enrichBill, pyContains, pyGet, pyGetD, pyReplace, htitle, hurl,
      hep, hget, bind, Except.bind, pure, Except.pure]

/-- Witness for the amended C8 at concrete inputs: a replacement, an
item with no link, and a failing detail fetch. -/
theorem enrich_detail_wholesale_replacement_witness :
    enrichBill
      (fun _ => Except.ok (jobj [("bill", jobj [("title", .str "An Act")])]))
      (jobj [("number", .num 5),
             ("url", .str "https://api.congress.gov/v3/bill/118/hr/5")])
      = .ok (jobj [("title", .str "An Act")]) ∧
    enrichBill (fun _ => Except.error "unreachable")
      (jobj [("number", .num 5)]) = .ok (jobj [("number", .num 5)]) ∧
    enrichBill (fun _ => Except.error "timeout")
      (jobj [("number", .num 5),
             ("url", .str "https://api.congress.gov/v3/bill/118/hr/5")])
      = .error (.fetchError "timeout") :=
  ⟨enrich_detail_wholesale_replacement.1 _
      (JObj.ofList [("number", .num 5),
        ("url", .str "https://api.congress.gov/v3/bill/118/hr/5")])
      "https://api.congress.gov/v3/bill/118/hr/5"
      (JObj.ofList [("bill", jobj [("title", .str "An Act")])])
      (jobj [("title", .str "An Act")])
      rfl rfl (by decide) rfl rfl,
   enrich_detail_wholesale_replacement.2.1 _
      (JObj.ofList [("number", .num 5)]) rfl rfl,
   enrich_detail_wholesale_replacement.2.2 _
      (JObj.ofList [("number", .num 5),
        ("url", .str "https://api.congress.gov/v3/bill/118/hr/5")])
      "https://api.congress.gov/v3/bill/118/hr/5" "timeout"
      rfl rfl (by decide) rfl⟩

/-!
## IngestionOrchestrator: `BulkIngestor.ingest_bills` / `ingest_members`
/ `ingest_amendments` / `ingest_committees` (bulk_ingest.py)

The sync-log timestamps (`started_at`, `completed_at`) are wall-clock
values with no bearing on any property below and are omitted from the
`SyncEntry` model; everything else bound by `log_sync` /
`update_sync_log` is kept.  Row timestamps come from a logical clock
threaded through the run.
-/

/-- The `self.stats` dictionary. -/
structure Stats where
  processed : Nat
  created : Nat
  updated : Nat
  failed : Nat
  errors : List String
deriving DecidableEq, Repr

/-- The re-initialisation value assigned at the top of every ingest
method: `{'processed': 0, 'created': 0, 'updated': 0, 'failed': 0,
'errors': []}`. -/
def zeroStats : Stats := ⟨0, 0, 0, 0, []⟩

/-- One `api_sync_log` row (minus the wall-clock timestamps). -/
structure SyncEntry where
  endpoint : String
  syncType : String
  status : String
  recordsProcessed : Nat
  recordsCreated : Nat
  recordsUpdated : Nat
  recordsFailed : Nat
  errorMessage : Option String
  parameters : Option String
deriving DecidableEq, Repr

/-- The `api_sync_log` table; row ids are positions in the append-only
entry list. -/
structure SyncLogTable where
  entries : List SyncEntry
deriving DecidableEq, Repr

/-- `DatabaseManager.log_sync` as every ingest method calls it: inserts
a row with `status='running'`, zero counters and no error message, and
returns its id. -/
def log_sync (t : SyncLogTable) (endpoint syncType : String)
    (parameters : Option String) : SyncLogTable × Nat :=
  ({ entries := t.entries ++
      [{ endpoint := endpoint
         syncType := syncType
         status := "running"
         recordsProcessed := 0
         recordsCreated := 0
         recordsUpdated := 0
         recordsFailed := 0
         errorMessage := none
         parameters := parameters }] },
   t.entries.length)

/-- In-place update of the entry at a given position. -/
def updateEntryAt : List SyncEntry → Nat → (SyncEntry → SyncEntry) →
    List SyncEntry
  | [], _, _ => []
  | e :: t, 0, f => f e :: t
  | e :: t, i + 1, f => e :: updateEntryAt t i f

/-- `DatabaseManager.update_sync_log`: sets status, the four counters
and the error message on the row with the given id.  The counters
default to 0 in the source, so the fatal path — which passes only
`status` and `error_message` — zeroes them. -/
def update_sync_log (t : SyncLogTable) (logId : Nat) (status : String)
    (rp rc ru rf : Nat) (errorMessage : Option String) : SyncLogTable :=
  { entries := updateEntryAt t.entries logId (fun e =>
      { e with
        status := status
        recordsProcessed := rp
        recordsCreated := rc
        recordsUpdated := ru
        recordsFailed := rf
        errorMessage := errorMessage }) }

/-- Python truthiness of the returned id in `if bill_id:` — `None` and
`0` are falsy. -/
def idTruthy : Option Nat → Bool
  | some n => n != 0
  | none => false

/-- The success branch of the per-item loop: `if <id>: created += 1 else:
updated += 1` followed by `processed += 1`. -/
def tallyOk (s : Stats) (rowId : Option Nat) : Stats :=
  let s1 :=
    if idTruthy rowId then { s with created := s.created + 1 }
    else { s with updated := s.updated + 1 }
  { s1 with processed := s1.processed + 1 }

/-- The per-item `except` branch: `failed += 1` and the exception's
message appended to the error list. -/
def tallyErr (s : Stats) (e : PyErr) : Stats :=
  { s with failed := s.failed + 1, errors := s.errors ++ [e.message] }

/-- The consumed capabilities of one ingest invocation: the fetch-all
call (endpoint and page cap applied) and the detail-fetch transport. -/
structure IngestEnv where
  fetch : String → Option Nat → Except String (List JVal)
  detailGet : String → Except String JVal

/-- Mutable state threaded through one ingest loop. -/
structure World (π : Type) where
  table : Table π
  stats : Stats
  clock : Nat

/-- One iteration of a per-item loop: the whole body sits in a `try`
whose handler tallies the failure, so the step function is total. -/
def stepOf {π : Type}
    (proc : Table π → Nat → JVal → Except PyErr (Table π × Option Nat))
    (w : World π) (item : JVal) : World π :=
  match proc w.table w.clock item with
  | .error e => { w with stats := tallyErr w.stats e, clock := w.clock + 1 }
  | .ok (t2, rowId) =>
      { table := t2, stats := tallyOk w.stats rowId, clock := w.clock + 1 }

/-- The body of the bills loop (bulk_ingest.py lines 166-183): enrich,
then persist. -/
def processBillItem (env : IngestEnv) (t : BillsTable) (clock : Nat)
    (item : JVal) : Except PyErr (BillsTable × Option Nat) := do
  let bd ← enrichBill env.detailGet item
  insertBillDb t bd clock

/-- The body of the members loop (lines 231-245): unconditional detail
fetch when the item carries a truthy `bioguideId`, then persist. -/
def processMemberItem (env : IngestEnv) (t : MembersTable) (clock : Nat)
    (item : JVal) : Except PyErr (MembersTable × Option Nat) := do
  let bid ← pyGet item "bioguideId"
  let md ←
    if bid.truthy then
      match env.detailGet ("member/" ++ pyStr bid) with
      | .error e => Except.error (PyErr.fetchError e)
      | .ok detail_data => pyGetD detail_data "member" item
    else pure item
  insertMemberDb t md clock

/-- The body of the amendments loop (lines 289-295): persist only. -/
def processAmendmentItem (env : IngestEnv) (t : AmendmentsTable)
    (clock : Nat) (item : JVal) :
    Except PyErr (AmendmentsTable × Option Nat) :=
  insertAmendmentDb t item clock

/-- The body of the committees loop (lines 333-339): persist only. -/
def processCommitteeItem (env : IngestEnv) (t : CommitteesTable)
    (clock : Nat) (item : JVal) :
    Except PyErr (CommitteesTable × Option Nat) :=
  insertCommitteeDb t item clock

/-- Result of one ingest invocation: the returned stats, the entity
table, the sync log and the id of the run's log row. -/
structure IngestOutcome (π : Type) where
  stats : Stats
  table : Table π
  log : SyncLogTable
  runId : Nat

def optIntTruthy : Option Int → Bool
  | none => false
  | some n => n != 0

def optStrTruthy : Option String → Bool
  | none => false
  | some s => s ≠ ""

def jOfOptInt : Option Int → JVal
  | none => .null
  | some n => .num n

def jOfOptStr : Option String → JVal
  | none => .null
  | some s => .str s

/-- Endpoint construction of `ingest_bills` (lines 137-152), Python
truthiness included: `congress=0` or an empty `bill_type` falls through
exactly as in the source. -/
def buildBillsEndpoint (congress : Option Int)
    (bill_type from_date to_date : Option String) : String :=
  let base :=
    if optIntTruthy congress && optStrTruthy bill_type then
      "bill/" ++ toString (congress.getD 0) ++ "/" ++ bill_type.getD ""
    else if optIntTruthy congress then
      "bill/" ++ toString (congress.getD 0)
    else "bill"
  if optStrTruthy from_date || optStrTruthy to_date then
    base ++ "?" ++ String.intercalate "&"
      ((if optStrTruthy from_date then
          ["fromDateTime=" ++ from_date.getD ""] else []) ++
       (if optStrTruthy to_date then
          ["toDateTime=" ++ to_date.getD ""] else []))
  else base

/-- `BulkIngestor.ingest_bills`.  `initStats` is the instance's stats
dictionary on entry; line 135 replaces it with fresh zeroes before
anything else, so the outcome does not depend on it.  A `.error` from
the fetch-all call models an exception escaping
`self._fetch_paginated`, caught by the method-level `except`: the run is
finalised as failed with `str(e)` and the (empty) stats are returned —
the only whole-batch abort.  On the normal path every fetched item goes
through enrich → persist inside the per-item `try`, and the run is
finalised as completed with the final counters. -/
def ingest_bills (env : IngestEnv) (initStats : Stats) (bills0 : BillsTable)
    (log0 : SyncLogTable) (clock0 : Nat) (congress : Option Int)
    (bill_type from_date to_date : Option String)
    (max_pages : Option Nat) : IngestOutcome BillParams :=
  let stats0 := zeroStats
  let endpoint := buildBillsEndpoint congress bill_type from_date to_date
  let logPair := log_sync log0 "bills" "bulk"
    (some (dumps (jobj [("congress", jOfOptInt congress),
                        ("bill_type", jOfOptStr bill_type)])))
  match env.fetch endpoint max_pages with
  | .error e =>
      { stats := stats0
        table := bills0
        log := update_sync_log logPair.1 logPair.2 "failed" 0 0 0 0 (some e)
        runId := logPair.2 }
  | .ok items =>
      let w := items.foldl (stepOf (processBillItem env))
        { table := bills0, stats := stats0, clock := clock0 }
      { stats := w.stats
        table := w.table
        log := update_sync_log logPair.1 logPair.2 "completed"
          w.stats.processed w.stats.created w.stats.updated w.stats.failed
          none
        runId := logPair.2 }

/-- Endpoint construction of `ingest_members` (line 217). -/
def buildMembersEndpoint (congress : Option Int) : String :=
  if optIntTruthy congress then
    "member/congress/" ++ toString (congress.getD 0)
  else "member"

/-- `BulkIngestor.ingest_members` (same skeleton as `ingest_bills`). -/
def ingest_members (env : IngestEnv) (initStats : Stats)
    (members0 : MembersTable) (log0 : SyncLogTable) (clock0 : Nat)
    (congress : Option Int) (max_pages : Option Nat) :
    IngestOutcome MemberParams :=
  let stats0 := zeroStats
  let endpoint := buildMembersEndpoint congress
  let logPair := log_sync log0 "members" "bulk"
    (some (dumps (jobj [("congress", jOfOptInt congress)])))
  match env.fetch endpoint max_pages with
  | .error e =>
      { stats := stats0
        table := members0
        log := update_sync_log logPair.1 logPair.2 "failed" 0 0 0 0 (some e)
        runId := logPair.2 }
  | .ok items =>
      let w := items.foldl (stepOf (processMemberItem env))
        { table := members0, stats := stats0, clock := clock0 }
      { stats := w.stats
        table := w.table
        log := update_sync_log logPair.1 logPair.2 "completed"
          w.stats.processed w.stats.created w.stats.updated w.stats.failed
          none
        runId := logPair.2 }

/-- Endpoint construction of `ingest_amendments` (line 275). -/
def buildAmendmentsEndpoint (congress : Option Int) : String :=
  if optIntTruthy congress then
    "amendment/" ++ toString (congress.getD 0)
  else "amendment"

/-- `BulkIngestor.ingest_amendments`. -/
def ingest_amendments (env : IngestEnv) (initStats : Stats)
    (amendments0 : AmendmentsTable) (log0 : SyncLogTable) (clock0 : Nat)
    (congress : Option Int) (max_pages : Option Nat) :
    IngestOutcome AmendmentParams :=
  let stats0 := zeroStats
  let endpoint := buildAmendmentsEndpoint congress
  let logPair := log_sync log0 "amendments" "bulk"
    (some (dumps (jobj [("congress", jOfOptInt congress)])))
  match env.fetch endpoint max_pages with
  | .error e =>
      { stats := stats0
        table := amendments0
        log := update_sync_log logPair.1 logPair.2 "failed" 0 0 0 0 (some e)
        runId := logPair.2 }
  | .ok items =>
      let w := items.foldl (stepOf (processAmendmentItem env))
        { table := amendments0, stats := stats0, clock := clock0 }
      { stats := w.stats
        table := w.table
        log := update_sync_log logPair.1 logPair.2 "completed"
          w.stats.processed w.stats.created w.stats.updated w.stats.failed
          none
        runId := logPair.2 }

/-- `BulkIngestor.ingest_committees`: two fixed chamber scopes fetched
and processed sequentially inside one `try`, contributing to one shared
run and stats accumulator; an exception escaping either fetch finalises
the run as failed with the stats accumulated so far (no parameters are
logged for this endpoint). -/
def ingest_committees (env : IngestEnv) (initStats : Stats)
    (committees0 : CommitteesTable) (log0 : SyncLogTable) (clock0 : Nat)
    (max_pages : Option Nat) : IngestOutcome CommitteeParams :=
  let stats0 := zeroStats
  let logPair := log_sync log0 "committees" "bulk" none
  match env.fetch "committee/house" max_pages with
  | .error e =>
      { stats := stats0
        table := committees0
        log := update_sync_log logPair.1 logPair.2 "failed" 0 0 0 0 (some e)
        runId := logPair.2 }
  | .ok houseItems =>
      let w1 := houseItems.foldl (stepOf (processCommitteeItem env))
        { table := committees0, stats := stats0, clock := clock0 }
      match env.fetch "committee/senate" max_pages with
      | .error e =>
          { stats := w1.stats
            table := w1.table
            log := update_sync_log logPair.1 logPair.2 "failed" 0 0 0 0
              (some e)
            runId := logPair.2 }
      | .ok senateItems =>
          let w2 := senateItems.foldl (stepOf (processCommitteeItem env)) w1
          { stats := w2.stats
            table := w2.table
            log := update_sync_log logPair.1 logPair.2 "completed"
              w2.stats.processed w2.stats.created w2.stats.updated
              w2.stats.failed none
            runId := logPair.2 }

lemma stepOf_cases {π : Type}
    (proc : Table π → Nat → JVal → Except PyErr (Table π × Option Nat))
    (w : World π) (item : JVal) :
    ((stepOf proc w item).stats.processed = w.stats.processed + 1 ∧
     (stepOf proc w item).stats.created + (stepOf proc w item).stats.updated
       = w.stats.created + w.stats.updated + 1 ∧
     (stepOf proc w item).stats.failed = w.stats.failed ∧
     (stepOf proc w item).stats.errors.length = w.stats.errors.length) ∨
    ((stepOf proc w item).stats.processed = w.stats.processed ∧
     (stepOf proc w item).stats.created = w.stats.created ∧
     (stepOf proc w item).stats.updated = w.stats.updated ∧
     (stepOf proc w item).stats.failed = w.stats.failed + 1 ∧
     (stepOf proc w item).stats.errors.length
       = w.stats.errors.length + 1) := by
  cases h : proc w.table w.clock item with
  | error e =>
      right
      simp [stepOf, h, tallyErr]
  | ok r =>
      left
      rcases r with ⟨t2, rowId⟩
      cases htr : idTruthy rowId <;>
        simp [stepOf, h, tallyOk, htr] <;> omega

lemma foldl_stepOf_counts {π : Type}
    (proc : Table π → Nat → JVal → Except PyErr (Table π × Option Nat)) :
    ∀ (items : List JVal) (w : World π),
      ((items.foldl (stepOf proc) w).stats.processed
          + w.stats.created + w.stats.updated
        = w.stats.processed + (items.foldl (stepOf proc) w).stats.created
          + (items.foldl (stepOf proc) w).stats.updated) ∧
      ((items.foldl (stepOf proc) w).stats.errors.length + w.stats.failed
        = w.stats.errors.length
          + (items.foldl (stepOf proc) w).stats.failed) ∧
      ((items.foldl (stepOf proc) w).stats.processed
          + (items.foldl (stepOf proc) w).stats.failed
        = w.stats.processed + w.stats.failed + items.length) := by
  intro items
  induction items with
  | nil => intro w; simp
  | cons item rest ih =>
      intro w
      have hc := stepOf_cases proc w item
      have hr := ih (stepOf proc w item)
      simp only [List.foldl_cons, List.length_cons]
      rcases hc with ⟨h1, h2, h3, h4⟩ | ⟨h1, h2, h3, h4, h5⟩ <;>
        exact ⟨by omega, by omega, by omega⟩

/-- The number of items a fetch-all outcome returned (an escaping
exception returned none). -/
def fetchCount (r : Except String (List JVal)) : Nat :=
  match r with
  | .ok items => items.length
  | .error _ => 0

/-- The number of items the pagination fetches returned during one
`ingest_committees` invocation: the senate fetch only happens when the
house fetch returned normally. -/
def committeesFetchedCount (env : IngestEnv) (mp : Option Nat) : Nat :=
  match env.fetch "committee/house" mp with
  | .error _ => 0
  | .ok hs => hs.length + fetchCount (env.fetch "committee/senate" mp)

/-- C9: counter consistency.  At the end of every terminating ingestion
invocation — bills, members, amendments or committees, whatever the
transport and store behaviour — the returned stats satisfy
`processed = created + updated`, the error list's length equals the
`failed` counter, and `processed + failed` equals the number of items
the pagination fetch returned for that invocation; and the outcome never
depends on the stats the ingestor held on entry, which are re-initialised
to all-zero counters and an empty error list first. -/
theorem ingest_stats_invariants :
    (∀ (env : IngestEnv) (initStats : Stats) (t0 : BillsTable)
        (log0 : SyncLogTable) (clock0 : Nat) (congress : Option Int)
        (bill_type from_date to_date : Option String)
        (max_pages : Option Nat),
      let o := ingest_bills env initStats t0 log0 clock0 congress
        bill_type from_date to_date max_pages
      o.stats.processed = o.stats.created + o.stats.updated ∧
      o.stats.errors.length = o.stats.failed ∧
      o.stats.processed + o.stats.failed
        = fetchCount (env.fetch
            (buildBillsEndpoint congress bill_type from_date to_date)
            max_pages) ∧
      o = ingest_bills env zeroStats t0 log0 clock0 congress bill_type
            from_date to_date max_pages) ∧
    (∀ (env : IngestEnv) (initStats : Stats) (t0 : MembersTable)
        (log0 : SyncLogTable) (clock0 : Nat) (congress : Option Int)
        (max_pages : Option Nat),
      let o := ingest_members env initStats t0 log0 clock0 congress
        max_pages
      o.stats.processed = o.stats.created + o.stats.updated ∧
      o.stats.errors.length = o.stats.failed ∧
      o.stats.processed + o.stats.failed
        = fetchCount (env.fetch (buildMembersEndpoint congress) max_pages) ∧
      o = ingest_members env zeroStats t0 log0 clock0 congress max_pages) ∧
    (∀ (env : IngestEnv) (initStats : Stats) (t0 : AmendmentsTable)
        (log0 : SyncLogTable) (clock0 : Nat) (congress : Option Int)
        (max_pages : Option Nat),
      let o := ingest_amendments env initStats t0 log0 clock0 congress
        max_pages
      o.stats.processed = o.stats.created + o.stats.updated ∧
      o.stats.errors.length = o.stats.failed ∧
      o.stats.processed + o.stats.failed
        = fetchCount (env.fetch (buildAmendmentsEndpoint congress)
            max_pages) ∧
      o = ingest_amendments env zeroStats t0 log0 clock0 congress
            max_pages) ∧
    (∀ (env : IngestEnv) (initStats : Stats) (t0 : CommitteesTable)
        (log0 : SyncLogTable) (clock0 : Nat) (max_pages : Option Nat),
      let o := ingest_committees env initStats t0 log0 clock0 max_pages
      o.stats.processed = o.stats.created + o.stats.updated ∧
      o.stats.errors.length = o.stats.failed ∧
      o.stats.processed + o.stats.failed
        = committeesFetchedCount env max_pages ∧
      o = ingest_committees env zeroStats t0 log0 clock0 max_pages) := by
  refine ⟨?_, ?_, ?_, ?_⟩
  · intro env initStats t0 log0 clock0 congress bill_type from_date
      to_date max_pages
    cases hf : env.fetch
        (buildBillsEndpoint congress bill_type from_date to_date)
        max_pages with
    | error e =>
        refine ⟨?_, ?_, ?_, rfl⟩ <;>
          simp [ingest_bills, hf, zeroStats, fetchCount]
    | ok items =>
        have h := foldl_stepOf_counts (processBillItem env) items
          { table := t0, stats := zeroStats, clock := clock0 }
        simp [zeroStats] at h
        refine ⟨?_, ?_, ?_, rfl⟩ <;>
          · simp [ingest_bills, hf, zeroStats, fetchCount]
            omega
  · intro env initStats t0 log0 clock0 congress max_pages
    cases hf : env.fetch (buildMembersEndpoint congress) max_pages with
    | error e =>
        refine ⟨?_, ?_, ?_, rfl⟩ <;>
          simp [ingest_members, hf, zeroStats, fetchCount]
    | ok items =>
        have h := foldl_stepOf_counts (processMemberItem env) items
          { table := t0, stats := zeroStats, clock := clock0 }
        simp [zeroStats] at h
        refine ⟨?_, ?_, ?_, rfl⟩ <;>
          · simp [ingest_members, hf, zeroStats, fetchCount]
            omega
  · intro env initStats t0 log0 clock0 congress max_pages
    cases hf : env.fetch (buildAmendmentsEndpoint congress) max_pages with
    | error e =>
        refine ⟨?_, ?_, ?_, rfl⟩ <;>
          simp [ingest_amendments, hf, zeroStats, fetchCount]
    | ok items =>
        have h := foldl_stepOf_counts (processAmendmentItem env) items
          { table := t0, stats := zeroStats, clock := clock0 }
        simp [zeroStats] at h
        refine ⟨?_, ?_, ?_, rfl⟩ <;>
          · simp [ingest_amendments, hf, zeroStats, fetchCount]
            omega
  · intro env initStats t0 log0 clock0 max_pages
    cases hf : env.fetch "committee/house" max_pages with
    | error e =>
        refine ⟨?_, ?_, ?_, rfl⟩ <;>
          simp [ingest_committees, hf, zeroStats, committeesFetchedCount]
    | ok houseItems =>
        have h1 := foldl_stepOf_counts (processCommitteeItem env) houseItems
          { table := t0, stats := zeroStats, clock := clock0 }
        simp [zeroStats] at h1
        cases hs : env.fetch "committee/senate" max_pages with
        | error e =>
            refine ⟨?_, ?_, ?_, rfl⟩ <;>
              · simp [ingest_committees, hf, hs, zeroStats,
                  committeesFetchedCount, fetchCount]
                omega
        | ok senateItems =>
            have h2 := foldl_stepOf_counts (processCommitteeItem env)
              senateItems
              (houseItems.foldl (stepOf (processCommitteeItem env))
                { table := t0, stats := zeroStats, clock := clock0 })
            simp [zeroStats] at h2
            refine ⟨?_, ?_, ?_, rfl⟩ <;>
              · simp [ingest_committees, hf, hs, zeroStats,
                  committeesFetchedCount, fetchCount]
                omega

lemma updateEntryAt_append (l : List SyncEntry) (e : SyncEntry)
    (f : SyncEntry → SyncEntry) :
    updateEntryAt (l ++ [e]) l.length f = l ++ [f e] := by
  induction l with
  | nil => rfl
  | cons x t ih => simp [updateEntryAt, ih]

lemma get?_append_self {α : Type} (l : List α) (x : α) :
    (l ++ [x]).get? l.length = some x := by
  induction l with
  | nil => rfl
  | cons y t ih => simpa [List.get?] using ih

/-- C6: fatal path of `ingest_bills`.  When the fetch-all call raises
(before returning any items), the SyncRun opened for the invocation is
finalised with `status='failed'` and an error message equal to the
raised exception's message, the returned stats show zero processed
records (they are the freshly reset all-zero stats), and the bills store
is untouched; and this is the only whole-batch abort — whenever the
fetch-all call returns items, the run is finalised as completed however
the individual items fare. -/
theorem ingest_bills_fatal_fetch_path
    (env : IngestEnv) (initStats : Stats) (t0 : BillsTable)
    (log0 : SyncLogTable) (clock0 : Nat) (congress : Option Int)
    (bill_type from_date to_date : Option String)
    (max_pages : Option Nat) :
    (∀ msg, env.fetch
        (buildBillsEndpoint congress bill_type from_date to_date)
        max_pages = .error msg →
      let o := ingest_bills env initStats t0 log0 clock0 congress
        bill_type from_date to_date max_pages
      o.stats = zeroStats ∧
      o.table = t0 ∧
      (o.log.entries.get? o.runId).map (fun e => e.status)
        = some "failed" ∧
      (o.log.entries.get? o.runId).map (fun e => e.errorMessage)
        = some (some msg)) ∧
    (∀ items, env.fetch
        (buildBillsEndpoint congress bill_type from_date to_date)
        max_pages = .ok items →
      ((ingest_bills env initStats t0 log0 clock0 congress bill_type
          from_date to_date max_pages).log.entries.get?
        (ingest_bills env initStats t0 log0 clock0 congress bill_type
          from_date to_date max_pages).runId).map (fun e => e.status)
        = some "completed") := by
  constructor
  · intro msg hf
    refine ⟨?_, ?_, ?_, ?_⟩ <;>
      simp [ingest_bills, hf, log_sync, update_sync_log,
        updateEntryAt_append, get?_append_self]
  · intro items hf
    simp [ingest_bills, hf, log_sync, update_sync_log,
      updateEntryAt_append, get?_append_self]

/-- Witness for C6: a transport whose fetch-all raises `"boom"`
finalises the run as failed with that message and zero stats; one whose
fetch-all returns an empty batch finalises it as completed. -/
theorem ingest_bills_fatal_fetch_path_witness :
    (let o := ingest_bills
        ⟨fun _ _ => Except.error "boom", fun _ => Except.error "x"⟩
        zeroStats Table.empty ⟨[]⟩ 0 (some 118) (some "hr") none none none
     o.stats = zeroStats ∧
     o.table = Table.empty ∧
     (o.log.entries.get? o.runId).map (fun e => e.status)
       = some "failed" ∧
     (o.log.entries.get? o.runId).map (fun e => e.errorMessage)
       = some (some "boom")) ∧
    ((ingest_bills ⟨fun _ _ => Except.ok [], fun _ => Except.error "x"⟩
        zeroStats Table.empty ⟨[]⟩ 0 (some 118) (some "hr") none none
        none).log.entries.get?
      (ingest_bills ⟨fun _ _ => Except.ok [], fun _ => Except.error "x"⟩
        zeroStats Table.empty ⟨[]⟩ 0 (some 118) (some "hr") none none
        none).runId).map (fun e => e.status) = some "completed" :=
  ⟨(ingest_bills_fatal_fetch_path
      ⟨fun _ _ => Except.error "boom", fun _ => Except.error "x"⟩
      zeroStats Table.empty ⟨[]⟩ 0 (some 118) (some "hr") none none
      none).1 "boom" rfl,
   (ingest_bills_fatal_fetch_path
      ⟨fun _ _ => Except.ok [], fun _ => Except.error "x"⟩
      zeroStats Table.empty ⟨[]⟩ 0 (some 118) (some "hr") none none
      none).2 [] rfl⟩

/-- C2 (evaluation at the failing input): the store's `insert_bill`
returns only an optional id — the upsert's `RETURNING id` yields an id
on the insert *and* on the update branch — so when the same natural key
is ingested twice the orchestrator's `if bill_id:` branch fires both
times: `created` ends at 2 and `updated` at 0, with a single stored
row; no store-computed created/updated boolean exists anywhere in the
pipeline. -/
theorem ingest_bills_counts_update_as_created :
    (let o := ingest_bills
        ⟨fun _ _ => Except.ok [c1Payload, c1Payload],
         fun _ => Except.error "unused"⟩
        zeroStats Table.empty ⟨[]⟩ 0 (some 118) (some "hr") none none none
     o.stats.processed = 2 ∧ o.stats.created = 2 ∧ o.stats.updated = 0 ∧
     o.stats.failed = 0 ∧ o.table.rows.length = 1) ∧
    (∃ t1 t2,
      runBillUpsert Table.empty
        (simpleBillParams (.num 118) (.str "hr") (.num 5) (.str "T")
          (dumps c1Payload)) 0 = .ok (t1, 1) ∧
      runBillUpsert t1
        (simpleBillParams (.num 118) (.str "hr") (.num 5) (.str "T")
          (dumps c1Payload)) 1 = .ok (t2, 1)) := by
  constructor
  · refine ⟨?_, ?_, ?_, ?_, ?_⟩ <;> decide
  · refine ⟨{ rows := [⟨1, simpleBillParams (.num 118) (.str "hr")
          (.num 5) (.str "T") (dumps c1Payload), 0, 0⟩], nextId := 2 },
        { rows := [⟨1, simpleBillParams (.num 118) (.str "hr")
          (.num 5) (.str "T") (dumps c1Payload), 0, 1⟩], nextId := 2 },
        ?_, ?_⟩ <;> decide

/-- The first and third items of the C3 batch: well-formed bills with
distinct natural keys. -/
def c3Item1 : JVal :=
  jobj [("congress", .num 118), ("type", .str "hr"),
        ("number", .num 1), ("title", .str "A")]

/-- The malformed second item of the C3 batch: natural-key fields
`type` and `number` are missing (the title is present, so no detail
fetch masks the defect). -/
def c3BadItem : JVal :=
  jobj [("congress", .num 118), ("title", .str "B")]

def c3Item3 : JVal :=
  jobj [("congress", .num 118), ("type", .str "hr"),
        ("number", .num 3), ("title", .str "C")]

/-- C3 (evaluation at the failing input): for the batch
`[good, missing type/number, good]` the store catches the
constraint violation inside `insert_bill` and returns `None`, which the
orchestrator's `else` branch counts as *updated* — so the final stats
are `processed = 3`, `failed = 0`, `created = 2`, `updated = 1` with an
*empty* error list (not `failed = 1` with one recorded error); the two
well-formed items are persisted and the run is finalised as
completed. -/
theorem ingest_bills_normalization_failure_not_counted_failed :
    (let o := ingest_bills
        ⟨fun _ _ => Except.ok [c3Item1, c3BadItem, c3Item3],
         fun _ => Except.error "unused"⟩
        zeroStats Table.empty ⟨[]⟩ 0 (some 118) (some "hr") none none none
     o.stats.processed = 3 ∧ o.stats.failed = 0 ∧ o.stats.created = 2 ∧
     o.stats.updated = 1 ∧ o.stats.errors = [] ∧
     o.table.rows.length = 2 ∧
     (o.log.entries.get? o.runId).map (fun e => e.status)
       = some "completed") := by
  refine ⟨?_, ?_, ?_, ?_, ?_, ?_, ?_⟩ <;> decide
